import Mathlib

/-!
Shallow embedding of `src/word-mark-generator/google-apps-script.js`,
the OCHA wordmark approval ledger (Google Apps Script web app).

The ledger (a Google Sheet with a header row) is modelled as a
`List Row` of the data rows; the header row is not part of the list,
matching the source loops that start at index `i = 1`.  Sheet cells are
strings.  JavaScript string operations (`trim`, `toUpperCase`,
`toLowerCase`, `||`, `charAt`) are embedded as executable functions on
Lean strings below; for ASCII data (all data these claims touch) the
embeddings agree with the JS semantics.

Randomness (`Math.random()`), the clock (`new Date().toISOString()`)
and the mail system (`MailApp.sendEmail`) are external effects: they
enter the embedding as explicit parameters.  `Math.floor(Math.random()
* chars.length)` with `Math.random() ∈ [0, 1)` and `chars.length = 32`
always yields an integer in `0 … 31`, so each random draw is a
`Fin 32`.
-/

namespace Wordmark

/-- JS `s.trim()` on the character list: drop Unicode whitespace from
both ends. -/
def trimList (l : List Char) : List Char :=
  ((l.dropWhile Char.isWhitespace).reverse.dropWhile Char.isWhitespace).reverse

/-- JS `s.trim()`. -/
def jsTrim (s : String) : String := ⟨trimList s.data⟩

/-- JS `s.toUpperCase()` (ASCII-faithful). -/
def jsToUpper (s : String) : String := ⟨s.data.map Char.toUpper⟩

/-- JS `s.toLowerCase()` (ASCII-faithful). -/
def jsToLower (s : String) : String := ⟨s.data.map Char.toLower⟩

/-- JS `s || d` for strings: the empty string is the only falsy
string, so it falls through to the default. -/
def jsOr (s d : String) : String := if s = "" then d else s

/-- JS `s.charAt(i)`: the one-character string at index `i`, or `''`
out of range. -/
def charAt (s : String) (i : Nat) : String :=
  if h : i < s.data.length then String.singleton (s.data.get ⟨i, h⟩) else ""

/-- The request-ID alphabet of `generateRequestId`
(`'ABCDEFGHJKLMNPQRSTUVWXYZ23456789'`, "no ambiguous chars"). -/
def chars : String := "ABCDEFGHJKLMNPQRSTUVWXYZ23456789"

/-- `generateRequestId()`: `'WM-'` followed by six random draws from
`chars`.  The six draws `Math.floor(Math.random() * chars.length)` are
the explicit argument `rands`. -/
def generateRequestId (rands : Fin 6 → Fin 32) : String :=
  (List.finRange 6).foldl (fun id i => id ++ charAt chars (rands i)) "WM-"

/-- One data row of the ledger sheet (columns A–J of the `Requests`
sheet; cells are strings). -/
structure Row where
  timestamp : String
  email : String
  icon : String
  line1 : String
  line2 : String
  line3 : String
  layout : String
  requestId : String
  status : String
  downloadedAt : String
  deriving DecidableEq, Repr, Inhabited

/-- The ledger: the data rows of the sheet (header row excluded). -/
abbrev Ledger := List Row

/-- The request parameters object (absent JS fields are the empty
string, which `||` treats exactly like `undefined`). -/
structure Params where
  action : String := ""
  email : String := ""
  icon : String := ""
  line1 : String := ""
  line2 : String := ""
  line3 : String := ""
  layout : String := ""
  requestId : String := ""
  deriving DecidableEq, Repr, Inhabited

/-- The JSON response bodies produced by the script: each constructor
is one of the object shapes, `failure` being
`{ success: false, error: … }`. -/
inductive ApiResponse where
  | submitOk (requestId : String) (message : String)
  | checkOk (statusVal : String) (canDownload : Bool)
  | downloadOk (canDownload : Bool)
  | failure (error : String)
  deriving DecidableEq, Repr

/-- Outcome of the external `MailApp.sendEmail` call (it either
returns or throws a message). -/
inductive NotifyOutcome where
  | ok
  | err (msg : String)
  deriving DecidableEq, Repr

/-- `submitRequest(params)` (lines 86–133).  `rands` stands for the
random draws of `generateRequestId`, `timestamp` for
`new Date().toISOString()`, and `notify` for the outcome of
`MailApp.sendEmail`.  Returns the response, the ledger after the call,
and the `Logger.log` output of the call. -/
def submitRequest (ledger : Ledger) (p : Params) (rands : Fin 6 → Fin 32)
    (timestamp : String) (notify : NotifyOutcome) :
    ApiResponse × Ledger × List String :=
  let requestId := generateRequestId rands
  let email := jsTrim (jsOr p.email "")
  let icon := jsTrim (jsOr p.icon "")
  let line1 := jsTrim (jsOr p.line1 "")
  let line2 := jsTrim (jsOr p.line2 "")
  let line3 := jsTrim (jsOr p.line3 "")
  let layout := jsTrim (jsOr p.layout "1")
  if email = "" ∨ icon = "" ∨ line1 = "" then
    (.failure "Email, icon, and at least line 1 are required.", ledger, [])
  else
    let newLedger := ledger ++
      [⟨timestamp, email, icon, line1, line2, line3, layout, requestId, "Pending", ""⟩]
    let log := match notify with
      | .ok => []
      | .err m => ["Email notification failed: " ++ m]
    (.submitOk requestId "Request submitted. You will receive an email when approved.",
     newLedger, log)

/-- The row-selection test shared by `checkStatus` and
`markDownloaded` (lines 149–152 and 178–181): the row's ID cell,
trimmed and upper-cased, equals the normalized input ID, and the row's
email cell, trimmed and lower-cased, equals the normalized input
email. -/
def rowMatches (nid ne : String) (r : Row) : Bool :=
  jsToUpper (jsTrim (jsOr r.requestId "")) == nid &&
    jsToLower (jsTrim (jsOr r.email "")) == ne

/-- The lookup loop of `checkStatus` (lines 148–162): first row
matching both fields wins. -/
def checkStatusGo (nid ne : String) : Ledger → ApiResponse
  | [] => .failure "Request not found. Check your Request ID and email."
  | r :: rs =>
    if rowMatches nid ne r then
      let statusVal := jsTrim (jsOr r.status "")
      .checkOk statusVal (statusVal == "Approved")
    else
      checkStatusGo nid ne rs

/-- `checkStatus(params)` (lines 136–163).  Read-only: the source
contains no write to the sheet, so the embedding returns no ledger. -/
def checkStatus (ledger : Ledger) (p : Params) : ApiResponse :=
  let requestId := jsToUpper (jsTrim (jsOr p.requestId ""))
  let email := jsToLower (jsTrim (jsOr p.email ""))
  if requestId = "" ∨ email = "" then
    .failure "Request ID and email are required."
  else
    checkStatusGo requestId email ledger

/-- The lookup-and-update loop of `markDownloaded` (lines 177–200):
on the first matching row, fail if already `Downloaded`, fail if not
`Approved`, otherwise write `Downloaded` into column I and `now` into
column J of that row. -/
def markDownloadedGo (nid ne now : String) : Ledger → ApiResponse × Ledger
  | [] => (.failure "Request not found.", [])
  | r :: rs =>
    if rowMatches nid ne r then
      let statusVal := jsTrim (jsOr r.status "")
      if statusVal = "Downloaded" then
        (.failure "This wordmark has already been downloaded. Contact ochavisual@un.org for another download.",
         r :: rs)
      else if statusVal ≠ "Approved" then
        (.failure "This request is not yet approved.", r :: rs)
      else
        (.downloadOk true, { r with status := "Downloaded", downloadedAt := now } :: rs)
    else
      let (res, rs') := markDownloadedGo nid ne now rs
      (res, r :: rs')

/-- `markDownloaded(params)` (lines 166–201); `now` stands for
`new Date().toISOString()`. -/
def markDownloaded (ledger : Ledger) (p : Params) (now : String) :
    ApiResponse × Ledger :=
  let requestId := jsToUpper (jsTrim (jsOr p.requestId ""))
  let email := jsToLower (jsTrim (jsOr p.email ""))
  if requestId = "" ∨ email = "" then
    (.failure "Request ID and email are required.", ledger)
  else
    markDownloadedGo requestId email now ledger

/-- The action dispatch of `handleRequest` (lines 69–79), paired with
the ledger state after the call: `submit` and `download` thread their
updated ledger; `check` performs no write, so the ledger passes
through unchanged. -/
def handleAction (p : Params) (rands : Fin 6 → Fin 32) (timestamp : String)
    (notify : NotifyOutcome) (now : String) (ledger : Ledger) :
    ApiResponse × Ledger :=
  if p.action = "submit" then
    let (res, l', _) := submitRequest ledger p rands timestamp notify
    (res, l')
  else if p.action = "check" then
    (checkStatus ledger p, ledger)
  else if p.action = "download" then
    markDownloaded ledger p now
  else
    (.failure "Unknown action", ledger)

/-- The spec's ledger invariant: a row's `downloadedAt` cell is
non-empty exactly when its `status` cell is the literal
`Downloaded`. -/
def LedgerInv (l : Ledger) : Prop :=
  ∀ r ∈ l, (r.downloadedAt ≠ "" ↔ r.status = "Downloaded")

/-! ### Helper lemmas about the embedded JS string operations -/

theorem jsOr_empty (s : String) : jsOr s "" = s := by
  unfold jsOr
  split <;> simp_all

theorem string_eq_empty_iff {s : String} : s = "" ↔ s.data = [] := by
  constructor
  · intro h
    subst h
    rfl
  · intro h
    exact String.ext h

theorem jsToUpper_eq_empty_iff {s : String} : jsToUpper s = "" ↔ s = "" := by
  rw [string_eq_empty_iff (s := jsToUpper s), string_eq_empty_iff]
  show s.data.map Char.toUpper = [] ↔ _
  simp

theorem jsToLower_eq_empty_iff {s : String} : jsToLower s = "" ↔ s = "" := by
  rw [string_eq_empty_iff (s := jsToLower s), string_eq_empty_iff]
  show s.data.map Char.toLower = [] ↔ _
  simp

theorem trimList_eq_rdrop (l : List Char) :
    trimList l = List.rdropWhile Char.isWhitespace (l.dropWhile Char.isWhitespace) := rfl

theorem trimList_idem (l : List Char) : trimList (trimList l) = trimList l := by
  rw [trimList_eq_rdrop, trimList_eq_rdrop]
  have h1 : List.dropWhile Char.isWhitespace
      (List.rdropWhile Char.isWhitespace (l.dropWhile Char.isWhitespace))
      = List.rdropWhile Char.isWhitespace (l.dropWhile Char.isWhitespace) := by
    rw [List.dropWhile_eq_self_iff]
    intro hl
    have hpre := List.rdropWhile_prefix Char.isWhitespace (l.dropWhile Char.isWhitespace)
    have hlen : 0 < (l.dropWhile Char.isWhitespace).length :=
      lt_of_lt_of_le hl hpre.length_le
    have hget := hpre.getElem (show 0 < (List.rdropWhile Char.isWhitespace
      (l.dropWhile Char.isWhitespace)).length from hl)
    have hzero := List.dropWhile_get_zero_not Char.isWhitespace l hlen
    simpa [List.get_eq_getElem, hget] using hzero
  rw [h1, List.rdropWhile_idempotent]

theorem trimList_eq_nil_iff {l : List Char} :
    trimList l = [] ↔ ∀ c ∈ l, Char.isWhitespace c := by
  rw [trimList_eq_rdrop, List.rdropWhile_eq_nil_iff]
  constructor
  · intro h c hc
    rcases (List.mem_append.1
        (by rw [List.takeWhile_append_dropWhile]; exact hc :
          c ∈ l.takeWhile Char.isWhitespace ++ l.dropWhile Char.isWhitespace)) with h1 | h2
    · exact List.mem_takeWhile_imp h1
    · exact h c h2
  · intro h c hc
    exact h c ((List.dropWhile_sublist Char.isWhitespace).mem hc)

theorem jsTrim_idem (s : String) : jsTrim (jsTrim s) = jsTrim s :=
  String.ext (trimList_idem s.data)

theorem jsTrim_eq_empty_iff {s : String} :
    jsTrim s = "" ↔ ∀ c ∈ s.data, Char.isWhitespace c := by
  rw [string_eq_empty_iff]
  exact trimList_eq_nil_iff

/-! ### Helper lemmas about the lookup loops -/

theorem rowMatches_update (nid ne x y : String) (r : Row) :
    rowMatches nid ne { r with status := x, downloadedAt := y } = rowMatches nid ne r := rfl

theorem checkStatusGo_append (nid ne : String) (pre rest : Ledger)
    (h : ∀ x ∈ pre, rowMatches nid ne x = false) :
    checkStatusGo nid ne (pre ++ rest) = checkStatusGo nid ne rest := by
  induction pre with
  | nil => rfl
  | cons a t ih =>
    have ha := h a (List.mem_cons_self a t)
    have ht := fun x hx => h x (List.mem_cons_of_mem a hx)
    simp only [List.cons_append, checkStatusGo, ha, Bool.false_eq_true, if_false]
    exact ih ht

theorem checkStatusGo_ok_exists {nid ne st : String} {cd : Bool} {l : Ledger}
    (h : checkStatusGo nid ne l = .checkOk st cd) :
    ∃ r ∈ l, rowMatches nid ne r = true := by
  induction l with
  | nil => simp [checkStatusGo] at h
  | cons a t ih =>
    by_cases hm : rowMatches nid ne a = true
    · exact ⟨a, List.mem_cons_self a t, hm⟩
    · rw [checkStatusGo, if_neg hm] at h
      obtain ⟨r, hr, hmr⟩ := ih h
      exact ⟨r, List.mem_cons_of_mem a hr, hmr⟩

theorem markDownloadedGo_append (nid ne now : String) (pre rest : Ledger)
    (h : ∀ x ∈ pre, rowMatches nid ne x = false) :
    markDownloadedGo nid ne now (pre ++ rest) =
      ((markDownloadedGo nid ne now rest).1,
        pre ++ (markDownloadedGo nid ne now rest).2) := by
  induction pre with
  | nil => rfl
  | cons a t ih =>
    have ha := h a (List.mem_cons_self a t)
    have ht := fun x hx => h x (List.mem_cons_of_mem a hx)
    rw [List.cons_append, markDownloadedGo, if_neg (by simp [ha]), ih ht]
    rfl

theorem markDownloadedGo_ok_exists {nid ne now : String} {b : Bool} {l l' : Ledger}
    (h : markDownloadedGo nid ne now l = (.downloadOk b, l')) :
    ∃ r ∈ l, rowMatches nid ne r = true := by
  induction l generalizing l' with
  | nil => simp [markDownloadedGo] at h
  | cons a t ih =>
    by_cases hm : rowMatches nid ne a = true
    · exact ⟨a, List.mem_cons_self a t, hm⟩
    · rw [markDownloadedGo, if_neg hm] at h
      rcases hmd : markDownloadedGo nid ne now t with ⟨res, rs2⟩
      rw [hmd] at h
      have h' : (res, a :: rs2) = ((ApiResponse.downloadOk b, l') : ApiResponse × Ledger) := h
      have hres : res = .downloadOk b := congrArg Prod.fst h'
      obtain ⟨r, hr, hmr⟩ := ih (by rw [hmd, hres])
      exact ⟨r, List.mem_cons_of_mem a hr, hmr⟩

theorem markDownloadedGo_length (nid ne now : String) (l : Ledger) :
    (markDownloadedGo nid ne now l).2.length = l.length := by
  induction l with
  | nil => rfl
  | cons a t ih =>
    rw [markDownloadedGo]
    by_cases hm : rowMatches nid ne a = true
    · rw [if_pos hm]
      by_cases h1 : jsTrim (jsOr a.status "") = "Downloaded"
      · simp [h1]
      · by_cases h2 : jsTrim (jsOr a.status "") ≠ "Approved" <;> simp [h1, h2]
    · rw [if_neg hm]
      simpa using ih

theorem markDownloadedGo_inv {nid ne now : String} {l : Ledger}
    (hnow : now ≠ "") (hinv : LedgerInv l) :
    LedgerInv (markDownloadedGo nid ne now l).2 := by
  induction l with
  | nil => exact hinv
  | cons a t ih =>
    have hat : LedgerInv t := fun r hr => hinv r (List.mem_cons_of_mem a hr)
    have haa := hinv a (List.mem_cons_self a t)
    rw [markDownloadedGo]
    by_cases hm : rowMatches nid ne a = true
    · rw [if_pos hm]
      by_cases h1 : jsTrim (jsOr a.status "") = "Downloaded"
      · rw [if_pos h1]
        exact hinv
      · rw [if_neg h1]
        by_cases h2 : jsTrim (jsOr a.status "") = "Approved"
        · rw [if_neg (not_not_intro h2)]
          intro r hr
          rcases List.mem_cons.1 hr with rfl | hr2
          · exact ⟨fun _ => rfl, fun _ => hnow⟩
          · exact hat r hr2
        · rw [if_pos h2]
          exact hinv
    · rw [if_neg hm]
      intro r hr
      have hr' : r ∈ a :: (markDownloadedGo nid ne now t).2 := hr
      rcases List.mem_cons.1 hr' with rfl | hr2
      · exact haa
      · exact ih hat r hr2

theorem checkStatusGo_nomatch {nid ne : String} {l : Ledger}
    (h : ∀ x ∈ l, rowMatches nid ne x = false) :
    checkStatusGo nid ne l = .failure "Request not found. Check your Request ID and email." := by
  have h2 := checkStatusGo_append nid ne l [] h
  rwa [List.append_nil] at h2

theorem markDownloadedGo_nomatch {nid ne now : String} {l : Ledger}
    (h : ∀ x ∈ l, rowMatches nid ne x = false) :
    markDownloadedGo nid ne now l = (.failure "Request not found.", l) := by
  have h2 := markDownloadedGo_append nid ne now l [] h
  rw [List.append_nil] at h2
  exact h2.trans (by simp [markDownloadedGo])

theorem markDownloadedGo_getD {nid ne now : String} (hnow : now ≠ "") (l : Ledger)
    (i : Nat) (h : (l.getD i default).downloadedAt ≠ "") :
    (((markDownloadedGo nid ne now l).2).getD i default).downloadedAt ≠ "" := by
  induction l generalizing i with
  | nil => exact h
  | cons a t ih =>
    rw [markDownloadedGo]
    by_cases hm : rowMatches nid ne a = true
    · rw [if_pos hm]
      by_cases h1 : jsTrim (jsOr a.status "") = "Downloaded"
      · rw [if_pos h1]
        exact h
      · rw [if_neg h1]
        by_cases h2 : jsTrim (jsOr a.status "") = "Approved"
        · rw [if_neg (not_not_intro h2)]
          cases i with
          | zero => exact hnow
          | succ n => exact h
        · rw [if_pos h2]
          exact h
    · rw [if_neg hm]
      cases i with
      | zero => exact h
      | succ n => exact ih n h

theorem charAt_chars (i : Fin 32) :
    ∃ c ∈ chars.data, charAt chars i.val = String.singleton c := by
  have hlen : chars.data.length = 32 := by decide
  have h : i.val < chars.data.length := by
    have := i.isLt
    omega
  refine ⟨chars.data.get ⟨i.val, h⟩, List.get_mem chars.data i.val h, ?_⟩
  unfold charAt
  rw [dif_pos h]

theorem generateRequestId_data (rands : Fin 6 → Fin 32) :
    ∃ cs : List Char, cs.length = 6 ∧ (∀ c ∈ cs, c ∈ chars.data) ∧
      (generateRequestId rands).data = 'W' :: 'M' :: '-' :: cs := by
  obtain ⟨c0, hm0, he0⟩ := charAt_chars (rands 0)
  obtain ⟨c1, hm1, he1⟩ := charAt_chars (rands 1)
  obtain ⟨c2, hm2, he2⟩ := charAt_chars (rands 2)
  obtain ⟨c3, hm3, he3⟩ := charAt_chars (rands 3)
  obtain ⟨c4, hm4, he4⟩ := charAt_chars (rands 4)
  obtain ⟨c5, hm5, he5⟩ := charAt_chars (rands 5)
  refine ⟨[c0, c1, c2, c3, c4, c5], rfl, ?_, ?_⟩
  · intro c hc
    simp only [List.mem_cons, List.not_mem_nil, or_false] at hc
    rcases hc with rfl | rfl | rfl | rfl | rfl | rfl <;> assumption
  · have hfin : List.finRange 6 = ([0, 1, 2, 3, 4, 5] : List (Fin 6)) := by decide
    unfold generateRequestId
    rw [hfin]
    simp only [List.foldl_cons, List.foldl_nil]
    rw [he0, he1, he2, he3, he4, he5]
    rfl

theorem generateRequestId_trim_ne_empty (rands : Fin 6 → Fin 32) :
    jsToUpper (jsTrim (generateRequestId rands)) ≠ "" := by
  rw [Ne, jsToUpper_eq_empty_iff, jsTrim_eq_empty_iff]
  obtain ⟨cs, -, -, hdata⟩ := generateRequestId_data rands
  rw [hdata]
  intro h
  exact absurd (h 'W' (List.mem_cons_self _ _)) (by decide)

/-! ### The claims -/

/-- C10: when the trimmed `requestId` or the trimmed `email` is empty,
`check` and `download` fail with the required-fields error
`Request ID and email are required.`; the result does not depend on
the ledger (the ledger is never scanned), the ledger is returned
unchanged, and the error is distinct from the `NotFound` errors. -/
theorem claim10_required_fields (ledger : Ledger) (p : Params) (now : String)
    (h : jsTrim p.requestId = "" ∨ jsTrim p.email = "") :
    checkStatus ledger p = .failure "Request ID and email are required." ∧
    markDownloaded ledger p now = (.failure "Request ID and email are required.", ledger) ∧
    (∀ l2 : Ledger, checkStatus l2 p = checkStatus ledger p ∧
      (markDownloaded l2 p now).1 = (markDownloaded ledger p now).1) ∧
    checkStatus ledger p ≠ .failure "Request not found. Check your Request ID and email." ∧
    (markDownloaded ledger p now).1 ≠ .failure "Request not found." := by
  have hguard : jsToUpper (jsTrim (jsOr p.requestId "")) = "" ∨
      jsToLower (jsTrim (jsOr p.email "")) = "" := by
    rw [jsOr_empty, jsOr_empty, jsToUpper_eq_empty_iff, jsToLower_eq_empty_iff]
    exact h
  have hc : ∀ l2 : Ledger, checkStatus l2 p = .failure "Request ID and email are required." := by
    intro l2
    simp only [checkStatus]
    rw [if_pos hguard]
  have hd : ∀ l2 : Ledger,
      markDownloaded l2 p now = (.failure "Request ID and email are required.", l2) := by
    intro l2
    simp only [markDownloaded]
    rw [if_pos hguard]
  refine ⟨hc ledger, hd ledger,
    fun l2 => ⟨(hc l2).trans (hc ledger).symm, by rw [hd l2, hd ledger]⟩, ?_, ?_⟩
  · rw [hc ledger]
    decide
  · have hfst : (markDownloaded ledger p now).1 =
        ApiResponse.failure "Request ID and email are required." := by
      rw [hd ledger]
    rw [hfst]
    decide

/-- C3: `submit` with empty (after trimming) `email`, `icon` or
`line1` fails with the validation error
`Email, icon, and at least line 1 are required.` — a message naming
all the required fields — and appends nothing to the ledger (and logs
nothing). -/
theorem claim3_submit_validation (ledger : Ledger) (p : Params) (rands : Fin 6 → Fin 32)
    (ts : String) (n : NotifyOutcome)
    (h : jsTrim p.email = "" ∨ jsTrim p.icon = "" ∨ jsTrim p.line1 = "") :
    submitRequest ledger p rands ts n =
      (.failure "Email, icon, and at least line 1 are required.", ledger, []) ∧
    (List.IsInfix "Email".data "Email, icon, and at least line 1 are required.".data ∧
     List.IsInfix "icon".data "Email, icon, and at least line 1 are required.".data ∧
     List.IsInfix "line 1".data "Email, icon, and at least line 1 are required.".data) := by
  constructor
  · simp only [submitRequest, jsOr_empty]
    rw [if_pos h]
  · exact ⟨by decide, by decide, by decide⟩

/-- C10 witness: a concrete call with a blank request ID. -/
theorem claim10_required_fields_witness :
    (jsTrim "  " = "" ∨ jsTrim "x" = "") ∧
    checkStatus [] { action := "check", requestId := "  ", email := "a@b.c" } =
      .failure "Request ID and email are required." := by
  have h : jsTrim "  " = "" ∨ jsTrim ("x" : String) = "" := Or.inl (by decide)
  exact ⟨h, (claim10_required_fields []
    { action := "check", requestId := "  ", email := "a@b.c" } "t"
    (Or.inl (by decide))).1⟩

/-- C3 witness: a concrete submission with a whitespace-only email. -/
theorem claim3_submit_validation_witness :
    (jsTrim " " = "" ∨ jsTrim "icon-un" = "" ∨ jsTrim "OCHA" = "") ∧
    submitRequest [] { action := "submit", email := " ", icon := "icon-un", line1 := "OCHA" }
      (fun _ => 0) "2026-01-01T00:00:00.000Z" .ok =
      (.failure "Email, icon, and at least line 1 are required.", [], []) := by
  have h : jsTrim (" " : String) = "" ∨ jsTrim ("icon-un" : String) = "" ∨
      jsTrim ("OCHA" : String) = "" := Or.inl (by decide)
  exact ⟨h, (claim3_submit_validation []
    { action := "submit", email := " ", icon := "icon-un", line1 := "OCHA" }
    (fun _ => 0) "2026-01-01T00:00:00.000Z" .ok h).1⟩

/-- C2: `check` and `download` locate a record only when both the
requestId (trimmed, upper-cased) and the email (trimmed, lower-cased)
match; when no stored row matches both normalized fields — in
particular a right requestId with a wrong email — both operations
fail with their `NotFound` error and the ledger is unchanged. -/
theorem claim2_credential_pair (ledger : Ledger) (p : Params) (now : String)
    (hnid : jsToUpper (jsTrim p.requestId) ≠ "")
    (hne : jsToLower (jsTrim p.email) ≠ "") :
    ((∀ x ∈ ledger,
        rowMatches (jsToUpper (jsTrim p.requestId)) (jsToLower (jsTrim p.email)) x = false) →
      checkStatus ledger p = .failure "Request not found. Check your Request ID and email." ∧
      markDownloaded ledger p now = (.failure "Request not found.", ledger)) ∧
    (∀ st : String, ∀ cd : Bool, checkStatus ledger p = .checkOk st cd →
      ∃ x ∈ ledger,
        rowMatches (jsToUpper (jsTrim p.requestId)) (jsToLower (jsTrim p.email)) x = true) ∧
    (∀ b : Bool, ∀ l2 : Ledger, markDownloaded ledger p now = (.downloadOk b, l2) →
      ∃ x ∈ ledger,
        rowMatches (jsToUpper (jsTrim p.requestId)) (jsToLower (jsTrim p.email)) x = true) := by
  have hguard : ¬(jsToUpper (jsTrim (jsOr p.requestId "")) = "" ∨
      jsToLower (jsTrim (jsOr p.email "")) = "") := by
    rw [jsOr_empty, jsOr_empty]
    push_neg
    exact ⟨hnid, hne⟩
  have hcs : checkStatus ledger p =
      checkStatusGo (jsToUpper (jsTrim p.requestId)) (jsToLower (jsTrim p.email)) ledger := by
    simp only [checkStatus]
    rw [if_neg hguard, jsOr_empty, jsOr_empty]
  have hmd : markDownloaded ledger p now =
      markDownloadedGo (jsToUpper (jsTrim p.requestId)) (jsToLower (jsTrim p.email)) now
        ledger := by
    simp only [markDownloaded]
    rw [if_neg hguard, jsOr_empty, jsOr_empty]
  refine ⟨fun hall => ⟨hcs.trans (checkStatusGo_nomatch hall),
      hmd.trans (markDownloadedGo_nomatch hall)⟩, ?_, ?_⟩
  · intro st cd h
    rw [hcs] at h
    exact checkStatusGo_ok_exists h
  · intro b l2 h
    rw [hmd] at h
    exact markDownloadedGo_ok_exists h

/-- C6: `download` on a record whose status is `Pending` or `Rejected`
(located as the first matching row) fails with the `NotApproved` error
`This request is not yet approved.` and leaves every ledger row
unchanged. -/
theorem claim6_not_approved (pre post : Ledger) (r : Row) (p : Params) (now : String)
    (hnid : jsToUpper (jsTrim p.requestId) ≠ "")
    (hne : jsToLower (jsTrim p.email) ≠ "")
    (hpre : ∀ x ∈ pre,
      rowMatches (jsToUpper (jsTrim p.requestId)) (jsToLower (jsTrim p.email)) x = false)
    (hr : rowMatches (jsToUpper (jsTrim p.requestId)) (jsToLower (jsTrim p.email)) r = true)
    (hst : r.status = "Pending" ∨ r.status = "Rejected") :
    markDownloaded (pre ++ r :: post) p now =
      (.failure "This request is not yet approved.", pre ++ r :: post) := by
  have hguard : ¬(jsToUpper (jsTrim (jsOr p.requestId "")) = "" ∨
      jsToLower (jsTrim (jsOr p.email "")) = "") := by
    rw [jsOr_empty, jsOr_empty]
    push_neg
    exact ⟨hnid, hne⟩
  have hgo : markDownloadedGo (jsToUpper (jsTrim p.requestId)) (jsToLower (jsTrim p.email))
      now (r :: post) = (.failure "This request is not yet approved.", r :: post) := by
    rw [markDownloadedGo, if_pos hr]
    rcases hst with h | h <;> rw [h] <;>
      rw [if_neg (by decide), if_pos (by decide)]
  simp only [markDownloaded]
  rw [if_neg hguard, jsOr_empty, jsOr_empty,
    markDownloadedGo_append _ _ _ pre (r :: post) hpre, hgo]

/-- C1: `download` on an `Approved` record (located as the first
matching row) succeeds exactly once: the first call returns
`canDownload = true` and rewrites the row's status to `Downloaded`
and its `downloadedAt` cell to the current time; an immediately
following call with the same credentials fails with the
`AlreadyDownloaded` error, which is distinct from the `NotFound` and
`NotApproved` errors. -/
theorem claim1_one_time_download (pre post : Ledger) (r : Row) (p : Params)
    (now now2 : String)
    (hnid : jsToUpper (jsTrim p.requestId) ≠ "")
    (hne : jsToLower (jsTrim p.email) ≠ "")
    (hpre : ∀ x ∈ pre,
      rowMatches (jsToUpper (jsTrim p.requestId)) (jsToLower (jsTrim p.email)) x = false)
    (hr : rowMatches (jsToUpper (jsTrim p.requestId)) (jsToLower (jsTrim p.email)) r = true)
    (hst : r.status = "Approved") :
    markDownloaded (pre ++ r :: post) p now =
      (.downloadOk true, pre ++ { r with status := "Downloaded", downloadedAt := now } :: post) ∧
    markDownloaded (pre ++ { r with status := "Downloaded", downloadedAt := now } :: post)
        p now2 =
      (.failure "This wordmark has already been downloaded. Contact ochavisual@un.org for another download.",
        pre ++ { r with status := "Downloaded", downloadedAt := now } :: post) ∧
    ("This wordmark has already been downloaded. Contact ochavisual@un.org for another download."
      ≠ "Request not found.") ∧
    ("This wordmark has already been downloaded. Contact ochavisual@un.org for another download."
      ≠ "This request is not yet approved.") := by
  have hguard : ¬(jsToUpper (jsTrim (jsOr p.requestId "")) = "" ∨
      jsToLower (jsTrim (jsOr p.email "")) = "") := by
    rw [jsOr_empty, jsOr_empty]
    push_neg
    exact ⟨hnid, hne⟩
  have hr2 : rowMatches (jsToUpper (jsTrim p.requestId)) (jsToLower (jsTrim p.email))
      { r with status := "Downloaded", downloadedAt := now } = true := by
    rw [rowMatches_update]
    exact hr
  refine ⟨?_, ?_, by decide, by decide⟩
  · have hgo : markDownloadedGo (jsToUpper (jsTrim p.requestId)) (jsToLower (jsTrim p.email))
        now (r :: post) =
        (.downloadOk true, { r with status := "Downloaded", downloadedAt := now } :: post) := by
      rw [markDownloadedGo, if_pos hr, hst]
      rw [if_neg (by decide), if_neg (by decide)]
    simp only [markDownloaded]
    rw [if_neg hguard, jsOr_empty, jsOr_empty,
      markDownloadedGo_append _ _ _ pre (r :: post) hpre, hgo]
  · have hgo : markDownloadedGo (jsToUpper (jsTrim p.requestId)) (jsToLower (jsTrim p.email))
        now2 ({ r with status := "Downloaded", downloadedAt := now } :: post) =
        (.failure "This wordmark has already been downloaded. Contact ochavisual@un.org for another download.",
          { r with status := "Downloaded", downloadedAt := now } :: post) := by
      rw [markDownloadedGo, if_pos hr2]
      have hstv : jsTrim (jsOr
          ({ r with status := "Downloaded", downloadedAt := now } : Row).status "") =
          "Downloaded" := by
        show jsTrim (jsOr "Downloaded" "") = "Downloaded"
        decide
      rw [if_pos hstv]
    simp only [markDownloaded]
    rw [if_neg hguard, jsOr_empty, jsOr_empty,
      markDownloadedGo_append _ _ _ pre _ hpre, hgo]

/-- C8: the result of `submit` (response and ledger) is independent of
the notification outcome; in particular, on valid input with a failing
`MailApp.sendEmail`, `submit` still appends the record and returns
success with the generated requestId — the mail error only reaches the
log. -/
theorem claim8_notify_swallowed (ledger : Ledger) (p : Params) (rands : Fin 6 → Fin 32)
    (ts : String) :
    (∀ n1 n2 : NotifyOutcome,
      (submitRequest ledger p rands ts n1).1 = (submitRequest ledger p rands ts n2).1 ∧
      (submitRequest ledger p rands ts n1).2.1 = (submitRequest ledger p rands ts n2).2.1) ∧
    (jsTrim p.email ≠ "" → jsTrim p.icon ≠ "" → jsTrim p.line1 ≠ "" → ∀ m : String,
      (submitRequest ledger p rands ts (.err m)).1 =
        .submitOk (generateRequestId rands)
          "Request submitted. You will receive an email when approved." ∧
      (submitRequest ledger p rands ts (.err m)).2.1 =
        ledger ++ [⟨ts, jsTrim p.email, jsTrim p.icon, jsTrim p.line1, jsTrim p.line2,
          jsTrim p.line3, jsTrim (jsOr p.layout "1"), generateRequestId rands, "Pending", ""⟩] ∧
      (submitRequest ledger p rands ts (.err m)).2.2 =
        ["Email notification failed: " ++ m]) := by
  constructor
  · intro n1 n2
    by_cases hg : jsTrim p.email = "" ∨ jsTrim p.icon = "" ∨ jsTrim p.line1 = ""
    · simp only [submitRequest, jsOr_empty]
      rw [if_pos hg, if_pos hg]
      exact ⟨rfl, rfl⟩
    · simp only [submitRequest, jsOr_empty]
      rw [if_neg hg, if_neg hg]
      exact ⟨rfl, rfl⟩
  · intro he hi hl m
    have hg : ¬(jsTrim p.email = "" ∨ jsTrim p.icon = "" ∨ jsTrim p.line1 = "") := by
      push_neg
      exact ⟨he, hi, hl⟩
    simp only [submitRequest, jsOr_empty]
    rw [if_neg hg]
    exact ⟨rfl, rfl, rfl⟩

/-- C5: the API operations preserve the invariant that a row's
`downloadedAt` is non-empty exactly when its status is `Downloaded`:
`submit` only appends rows with status `Pending` and empty
`downloadedAt`, and `download` (with a non-empty timestamp) preserves
the invariant, preserves the row count, and never clears a non-empty
`downloadedAt` cell of any row. -/
theorem claim5_downloadedAt_invariant (ledger : Ledger) (p : Params)
    (rands : Fin 6 → Fin 32) (ts : String) (n : NotifyOutcome) (now : String)
    (hnow : now ≠ "") :
    (LedgerInv ledger → LedgerInv (submitRequest ledger p rands ts n).2.1) ∧
    (∀ r ∈ (submitRequest ledger p rands ts n).2.1,
      r ∈ ledger ∨ (r.status = "Pending" ∧ r.downloadedAt = "")) ∧
    (LedgerInv ledger → LedgerInv (markDownloaded ledger p now).2) ∧
    ((markDownloaded ledger p now).2.length = ledger.length) ∧
    (∀ i : Nat, (ledger.getD i default).downloadedAt ≠ "" →
      (((markDownloaded ledger p now).2).getD i default).downloadedAt ≠ "") := by
  have hsub : (submitRequest ledger p rands ts n).2.1 = ledger ∨
      (submitRequest ledger p rands ts n).2.1 = ledger ++
        [⟨ts, jsTrim p.email, jsTrim p.icon, jsTrim p.line1, jsTrim p.line2,
          jsTrim p.line3, jsTrim (jsOr p.layout "1"), generateRequestId rands,
          "Pending", ""⟩] := by
    by_cases hg : jsTrim p.email = "" ∨ jsTrim p.icon = "" ∨ jsTrim p.line1 = ""
    · left
      simp only [submitRequest, jsOr_empty]
      rw [if_pos hg]
    · right
      simp only [submitRequest, jsOr_empty]
      rw [if_neg hg]
  have hmd : (markDownloaded ledger p now).2 = ledger ∨
      (markDownloaded ledger p now).2 =
        (markDownloadedGo (jsToUpper (jsTrim (jsOr p.requestId "")))
          (jsToLower (jsTrim (jsOr p.email ""))) now ledger).2 := by
    by_cases hg : jsToUpper (jsTrim (jsOr p.requestId "")) = "" ∨
        jsToLower (jsTrim (jsOr p.email "")) = ""
    · left
      simp only [markDownloaded]
      rw [if_pos hg]
    · right
      simp only [markDownloaded]
      rw [if_neg hg]
  refine ⟨?_, ?_, ?_, ?_, ?_⟩
  · intro hinv
    rcases hsub with h | h <;> rw [h]
    · exact hinv
    · intro r hr
      rcases List.mem_append.1 hr with h1 | h2
      · exact hinv r h1
      · rcases List.mem_singleton.1 h2 with rfl
        exact iff_of_false (not_not_intro rfl)
          (show ¬(("Pending" : String) = "Downloaded") by decide)
  · intro r hr
    rcases hsub with h | h <;> rw [h] at hr
    · exact Or.inl hr
    · rcases List.mem_append.1 hr with h1 | h2
      · exact Or.inl h1
      · rcases List.mem_singleton.1 h2 with rfl
        exact Or.inr ⟨rfl, rfl⟩
  · intro hinv
    rcases hmd with h | h <;> rw [h]
    · exact hinv
    · exact markDownloadedGo_inv hnow hinv
  · rcases hmd with h | h <;> rw [h]
    · exact markDownloadedGo_length _ _ _ _
  · intro i hi
    rcases hmd with h | h <;> rw [h]
    · exact hi
    · exact markDownloadedGo_getD hnow ledger i hi

/-- C7: `check` never mutates stored state: under the `handleRequest`
dispatch, any number of `check` calls leaves the ledger equal to the
initial ledger, and every one of the repeated calls returns the same
result, namely `checkStatus` of the initial ledger. -/
theorem claim7_check_readonly (p : Params) (rands : Fin 6 → Fin 32) (ts : String)
    (n : NotifyOutcome) (now : String) (ledger : Ledger)
    (h : p.action = "check") :
    (∀ k : Nat, (fun l => (handleAction p rands ts n now l).2)^[k] ledger = ledger) ∧
    (∀ k : Nat,
      (handleAction p rands ts n now
        ((fun l => (handleAction p rands ts n now l).2)^[k] ledger)).1 =
        checkStatus ledger p) := by
  have hstep : ∀ l : Ledger, handleAction p rands ts n now l = (checkStatus l p, l) := by
    intro l
    simp only [handleAction, h]
    simp
  have hiter : ∀ k : Nat,
      (fun l => (handleAction p rands ts n now l).2)^[k] ledger = ledger := by
    intro k
    induction k with
    | zero => rfl
    | succ m ih =>
      rw [Function.iterate_succ_apply', ih, hstep]
  refine ⟨hiter, fun k => ?_⟩
  rw [hiter k, hstep]

/-- C4: every valid submission returns a requestId of the literal form
`WM-` followed by exactly six characters of the 32-symbol alphabet
`ABCDEFGHJKLMNPQRSTUVWXYZ23456789`, and (when the generated id does
not collide with an existing row) a subsequent `check` with that
requestId and the same email answers status `Pending` with
`canDownload = false`. -/
theorem claim4_requestId_pattern (ledger : Ledger) (p : Params)
    (rands : Fin 6 → Fin 32) (ts : String) (n : NotifyOutcome)
    (he : jsTrim p.email ≠ "") (hi : jsTrim p.icon ≠ "") (hl : jsTrim p.line1 ≠ "")
    (hfresh : ∀ x ∈ ledger,
      rowMatches (jsToUpper (jsTrim (generateRequestId rands)))
        (jsToLower (jsTrim p.email)) x = false) :
    (∃ cs : List Char, cs.length = 6 ∧ (∀ c ∈ cs, c ∈ chars.data) ∧
      (generateRequestId rands).data = 'W' :: 'M' :: '-' :: cs) ∧
    (submitRequest ledger p rands ts n).1 =
      .submitOk (generateRequestId rands)
        "Request submitted. You will receive an email when approved." ∧
    checkStatus (submitRequest ledger p rands ts n).2.1
      { action := "check", requestId := generateRequestId rands, email := p.email } =
      .checkOk "Pending" false := by
  have hg : ¬(jsTrim p.email = "" ∨ jsTrim p.icon = "" ∨ jsTrim p.line1 = "") := by
    push_neg
    exact ⟨he, hi, hl⟩
  have hsub1 : (submitRequest ledger p rands ts n).1 =
      .submitOk (generateRequestId rands)
        "Request submitted. You will receive an email when approved." := by
    simp only [submitRequest, jsOr_empty]
    rw [if_neg hg]
  have hsub2 : (submitRequest ledger p rands ts n).2.1 = ledger ++
      [⟨ts, jsTrim p.email, jsTrim p.icon, jsTrim p.line1, jsTrim p.line2,
        jsTrim p.line3, jsTrim (jsOr p.layout "1"), generateRequestId rands,
        "Pending", ""⟩] := by
    simp only [submitRequest, jsOr_empty]
    rw [if_neg hg]
  refine ⟨generateRequestId_data rands, hsub1, ?_⟩
  rw [hsub2]
  have hnid := generateRequestId_trim_ne_empty rands
  have hne : jsToLower (jsTrim p.email) ≠ "" := by
    rw [Ne, jsToLower_eq_empty_iff]
    exact he
  have hguard : ¬(jsToUpper (jsTrim (jsOr (generateRequestId rands) "")) = "" ∨
      jsToLower (jsTrim (jsOr p.email "")) = "") := by
    rw [jsOr_empty, jsOr_empty]
    push_neg
    exact ⟨hnid, hne⟩
  simp only [checkStatus]
  rw [if_neg hguard, jsOr_empty, jsOr_empty,
    checkStatusGo_append _ _ ledger _ hfresh]
  have hmatch : rowMatches (jsToUpper (jsTrim (generateRequestId rands)))
      (jsToLower (jsTrim p.email))
      (⟨ts, jsTrim p.email, jsTrim p.icon, jsTrim p.line1, jsTrim p.line2,
        jsTrim p.line3, jsTrim (jsOr p.layout "1"), generateRequestId rands,
        "Pending", ""⟩ : Row) = true := by
    simp [rowMatches, jsOr_empty, jsTrim_idem]
  rw [checkStatusGo, if_pos hmatch]
  show ApiResponse.checkOk (jsTrim (jsOr "Pending" ""))
    (jsTrim (jsOr "Pending" "") == "Approved") = .checkOk "Pending" false
  decide

/-- C1 witness: a concrete approved row, downloaded once. -/
theorem claim1_one_time_download_witness :
    rowMatches (jsToUpper (jsTrim "WM-ABCDEF")) (jsToLower (jsTrim "user@example.org"))
      ⟨"2026-01-01T00:00:00.000Z", "user@example.org", "icon-un", "OCHA", "", "", "1",
        "WM-ABCDEF", "Approved", ""⟩ = true ∧
    markDownloaded [⟨"2026-01-01T00:00:00.000Z", "user@example.org", "icon-un", "OCHA",
        "", "", "1", "WM-ABCDEF", "Approved", ""⟩]
      { action := "download", requestId := "WM-ABCDEF", email := "user@example.org" }
      "2026-02-02T00:00:00.000Z" =
      (.downloadOk true, [⟨"2026-01-01T00:00:00.000Z", "user@example.org", "icon-un",
        "OCHA", "", "", "1", "WM-ABCDEF", "Downloaded", "2026-02-02T00:00:00.000Z"⟩]) := by
  constructor
  · decide
  · exact (claim1_one_time_download [] []
      ⟨"2026-01-01T00:00:00.000Z", "user@example.org", "icon-un", "OCHA", "", "", "1",
        "WM-ABCDEF", "Approved", ""⟩
      { action := "download", requestId := "WM-ABCDEF", email := "user@example.org" }
      "2026-02-02T00:00:00.000Z" "2026-03-03T00:00:00.000Z"
      (by decide) (by decide) (by simp) (by decide) rfl).1

/-- C2 witness: a right requestId with a wrong email is `NotFound`. -/
theorem claim2_credential_pair_witness :
    jsToUpper (jsTrim "WM-ABCDEF") ≠ "" ∧
    checkStatus [⟨"2026-01-01T00:00:00.000Z", "user@example.org", "icon-un", "OCHA",
        "", "", "1", "WM-ABCDEF", "Approved", ""⟩]
      { action := "check", requestId := "WM-ABCDEF", email := "other@example.org" } =
      .failure "Request not found. Check your Request ID and email." := by
  constructor
  · decide
  · exact ((claim2_credential_pair
      [⟨"2026-01-01T00:00:00.000Z", "user@example.org", "icon-un", "OCHA", "", "", "1",
        "WM-ABCDEF", "Approved", ""⟩]
      { action := "check", requestId := "WM-ABCDEF", email := "other@example.org" }
      "2026-02-02T00:00:00.000Z" (by decide) (by decide)).1 (by decide)).1

/-- C4 witness: a concrete valid submission followed by a `check`. -/
theorem claim4_requestId_pattern_witness :
    jsTrim "user@example.org" ≠ "" ∧
    checkStatus (submitRequest []
        { action := "submit", email := "user@example.org", icon := "icon-un", line1 := "OCHA" }
        (fun _ => 0) "2026-01-01T00:00:00.000Z" .ok).2.1
      { action := "check", requestId := generateRequestId (fun _ => 0),
        email := "user@example.org" } =
      .checkOk "Pending" false := by
  constructor
  · decide
  · exact (claim4_requestId_pattern []
      { action := "submit", email := "user@example.org", icon := "icon-un", line1 := "OCHA" }
      (fun _ => 0) "2026-01-01T00:00:00.000Z" .ok
      (by decide) (by decide) (by decide) (by simp)).2.2

/-- C5 witness: the download path preserves the row count on a
concrete ledger. -/
theorem claim5_downloadedAt_invariant_witness :
    ("2026-02-02T00:00:00.000Z" : String) ≠ "" ∧
    (markDownloaded [⟨"2026-01-01T00:00:00.000Z", "user@example.org", "icon-un", "OCHA",
        "", "", "1", "WM-ABCDEF", "Approved", ""⟩]
      { action := "download", requestId := "WM-ABCDEF", email := "user@example.org" }
      "2026-02-02T00:00:00.000Z").2.length =
      [(⟨"2026-01-01T00:00:00.000Z", "user@example.org", "icon-un", "OCHA",
        "", "", "1", "WM-ABCDEF", "Approved", ""⟩ : Row)].length := by
  constructor
  · decide
  · exact (claim5_downloadedAt_invariant
      [⟨"2026-01-01T00:00:00.000Z", "user@example.org", "icon-un", "OCHA", "", "", "1",
        "WM-ABCDEF", "Approved", ""⟩]
      { action := "download", requestId := "WM-ABCDEF", email := "user@example.org" }
      (fun _ => 0) "2026-01-01T00:00:00.000Z" .ok "2026-02-02T00:00:00.000Z"
      (by decide)).2.2.2.1

/-- C6 witness: `download` on a concrete `Pending` row. -/
theorem claim6_not_approved_witness :
    rowMatches (jsToUpper (jsTrim "WM-ABCDEF")) (jsToLower (jsTrim "user@example.org"))
      ⟨"2026-01-01T00:00:00.000Z", "user@example.org", "icon-un", "OCHA", "", "", "1",
        "WM-ABCDEF", "Pending", ""⟩ = true ∧
    markDownloaded [⟨"2026-01-01T00:00:00.000Z", "user@example.org", "icon-un", "OCHA",
        "", "", "1", "WM-ABCDEF", "Pending", ""⟩]
      { action := "download", requestId := "WM-ABCDEF", email := "user@example.org" }
      "2026-02-02T00:00:00.000Z" =
      (.failure "This request is not yet approved.",
        [⟨"2026-01-01T00:00:00.000Z", "user@example.org", "icon-un", "OCHA", "", "", "1",
          "WM-ABCDEF", "Pending", ""⟩]) := by
  constructor
  · decide
  · exact claim6_not_approved [] []
      ⟨"2026-01-01T00:00:00.000Z", "user@example.org", "icon-un", "OCHA", "", "", "1",
        "WM-ABCDEF", "Pending", ""⟩
      { action := "download", requestId := "WM-ABCDEF", email := "user@example.org" }
      "2026-02-02T00:00:00.000Z"
      (by decide) (by decide) (by simp) (by decide) (Or.inl rfl)

/-- C7 witness: three `check` calls on a concrete ledger leave it
unchanged. -/
theorem claim7_check_readonly_witness :
    ({ action := "check", requestId := "WM-ABCDEF", email := "user@example.org" } :
      Params).action = "check" ∧
    (fun l => (handleAction
        { action := "check", requestId := "WM-ABCDEF", email := "user@example.org" }
        (fun _ => 0) "2026-01-01T00:00:00.000Z" .ok "2026-02-02T00:00:00.000Z" l).2)^[3]
      [⟨"2026-01-01T00:00:00.000Z", "user@example.org", "icon-un", "OCHA", "", "", "1",
        "WM-ABCDEF", "Approved", ""⟩] =
      [⟨"2026-01-01T00:00:00.000Z", "user@example.org", "icon-un", "OCHA", "", "", "1",
        "WM-ABCDEF", "Approved", ""⟩] := by
  constructor
  · rfl
  · exact (claim7_check_readonly
      { action := "check", requestId := "WM-ABCDEF", email := "user@example.org" }
      (fun _ => 0) "2026-01-01T00:00:00.000Z" .ok "2026-02-02T00:00:00.000Z"
      [⟨"2026-01-01T00:00:00.000Z", "user@example.org", "icon-un", "OCHA", "", "", "1",
        "WM-ABCDEF", "Approved", ""⟩] rfl).1 3

/-- C8 witness: a concrete valid submission with a failing mail call
still succeeds. -/
theorem claim8_notify_swallowed_witness :
    jsTrim "user@example.org" ≠ "" ∧
    (submitRequest []
      { action := "submit", email := "user@example.org", icon := "icon-un", line1 := "OCHA" }
      (fun _ => 0) "2026-01-01T00:00:00.000Z" (.err "mail down")).1 =
      .submitOk (generateRequestId (fun _ => 0))
        "Request submitted. You will receive an email when approved." := by
  constructor
  · decide
  · exact ((claim8_notify_swallowed []
      { action := "submit", email := "user@example.org", icon := "icon-un", line1 := "OCHA" }
      (fun _ => 0) "2026-01-01T00:00:00.000Z").2
      (by decide) (by decide) (by decide) "mail down").1

end Wordmark
